import Mathlib

/-!
Verification of the business-plan-review server (src/public/app.js).

The server keeps one in-memory JSON document (`db`) with the business-plan
sections, the discussions (each embedding its replies), the notifications and
three id counters, and exposes REST handlers that mutate it.  We embed that
state and each handler as a pure Lean function: every handler becomes a
function from the current state (plus the request parameters and the current
time) to the new state and the HTTP response data.

Conventions of the embedding:
* ISO-8601 timestamp strings (`new Date().toISOString()`) are modelled by their
  underlying millisecond value as a `Nat`; `toISOString` is injective and
  order-preserving on these values, so equality and date comparison of the
  strings coincide with equality and `≤` on the model.
* The handlers run single-threaded (the runtime serializes request handling),
  so each endpoint is one atomic state transformation.
* `JSON.stringify` / `JSON.parse` of the persisted file are modelled at the
  JSON-value level by `encodeDB` / `decodeDB` over an inductive `JVal` type;
  stringify followed by parse is the identity on JSON value trees, so the
  value-level round trip captures the file round trip.
-/

namespace BPR

/-- One reply in a discussion thread (app.js, POST /api/discussions/:id/replies). -/
structure Reply where
  id : Nat
  text : String
  author : String
  created_at : Nat
deriving DecidableEq, Repr

/-- A discussion record as created by POST /api/discussions in app.js. -/
structure Discussion where
  id : Nat
  section_id : Option Int
  type : String
  text : String
  author : String
  resolved : Bool
  resolved_by : Option String
  resolved_at : Option Nat
  created_at : Nat
  replies : List Reply
deriving DecidableEq, Repr

/-- A notification record as pushed by the create/reply handlers in app.js. -/
structure Notification where
  id : Nat
  user : String
  type : String
  message : String
  discussion_id : Nat
  read : Bool
  created_at : Nat
deriving DecidableEq, Repr

/-- A business-plan section (seeded by getBusinessPlanSections; `updated_at`
is absent until PUT /api/sections/:id first touches the section). -/
structure PlanSection where
  id : Nat
  title : String
  level : Nat
  content : String
  updated_at : Option Nat
deriving DecidableEq, Repr

/-- The three persisted id counters (`db.nextId`). -/
structure NextId where
  discussion : Nat
  reply : Nat
  notification : Nat
deriving DecidableEq, Repr

/-- The whole persisted state (`db` in app.js / the data.json document). -/
structure DB where
  sections : List PlanSection
  discussions : List Discussion
  notifications : List Notification
  nextId : NextId
deriving DecidableEq, Repr

/-- The freshly initialized state (initializeDB), parameterized by the seed
section list returned by getBusinessPlanSections. -/
def initDB (secs : List PlanSection) : DB :=
  { sections := secs, discussions := [], notifications := [],
    nextId := { discussion := 1, reply := 1, notification := 1 } }

/-- Update the first element satisfying `p` (JS `array.find(...)` followed by
in-place mutation of the found object). -/
def updateFirst (p : α → Bool) (f : α → α) : List α → List α
  | [] => []
  | x :: xs => if p x then f x :: xs else x :: updateFirst p f xs

/-- `author === 'Francisco' ? 'Wife' : 'Francisco'` (create-discussion handler). -/
def otherUser (author : String) : String :=
  if author = "Francisco" then "Wife" else "Francisco"

/-- POST /api/discussions.  No validation is performed; the handler always
pushes one discussion and one notification and answers
`{id, success:true}` (HTTP 200).  `section_id` models the body field after
`section_id ? parseInt(section_id) : null` (a falsy value, in particular 0,
becomes null).  Returns the new state and the fresh discussion id. -/
def createDiscussionE (db : DB) (now : Nat) (sid : Option Int) (ty tx au : String) :
    DB × Nat :=
  let d : Discussion :=
    { id := db.nextId.discussion
      section_id := match sid with
        | some v => if v = 0 then none else some v
        | none => none
      type := ty
      text := tx
      author := au
      resolved := false
      resolved_by := none
      resolved_at := none
      created_at := now
      replies := [] }
  let n : Notification :=
    { id := db.nextId.notification
      user := otherUser au
      type := ty
      message := au ++ " added a " ++ ty
      discussion_id := d.id
      read := false
      created_at := now }
  ({ db with
      discussions := db.discussions ++ [d]
      notifications := db.notifications ++ [n]
      nextId := { db.nextId with
        discussion := db.nextId.discussion + 1
        notification := db.nextId.notification + 1 } }, d.id)

/-- `['Francisco', 'Wife'].filter(u => u !== author)` (reply handler). -/
def replyRecipients (au : String) : List String :=
  ["Francisco", "Wife"].filter (fun u => u != au)

/-- POST /api/discussions/:id/replies.  If no discussion has the requested id
the handler answers 404 and changes nothing; otherwise it appends one reply to
the found discussion, pushes one notification per recipient (with consecutive
ids drawn from the notification counter) and answers 200 with the reply id. -/
def addReplyE (db : DB) (now : Nat) (did : Nat) (tx au : String) :
    DB × Nat × Option Nat :=
  match db.discussions.find? (fun d => d.id == did) with
  | none => (db, 404, none)
  | some disc =>
    let r : Reply := { id := db.nextId.reply, text := tx, author := au, created_at := now }
    let recips := replyRecipients au
    let newNotifs : List Notification := recips.enum.map (fun p =>
      { id := db.nextId.notification + p.1
        user := p.2
        type := "reply"
        message := au ++ " replied to a discussion"
        discussion_id := disc.id
        read := false
        created_at := now })
    ({ db with
        discussions := updateFirst (fun d => d.id == did)
          (fun d => { d with replies := d.replies ++ [r] }) db.discussions
        notifications := db.notifications ++ newNotifs
        nextId := { db.nextId with
          reply := db.nextId.reply + 1
          notification := db.nextId.notification + recips.length } }, 200, some r.id)

/-- PATCH /api/discussions/:id/resolve.  Always answers `{success:true}`
(HTTP 200); when the id is found it sets `resolved` and sets/clears
`resolved_by` and `resolved_at` together. -/
def setResolvedE (db : DB) (now : Nat) (did : Nat) (resolved : Bool)
    (resolved_by : Option String) : DB × Nat :=
  ({ db with
      discussions := updateFirst (fun d => d.id == did)
        (fun d => { d with
          resolved := resolved
          resolved_by := if resolved then resolved_by else none
          resolved_at := if resolved then some now else none }) db.discussions }, 200)

/-- DELETE /api/discussions/:id — unconditional filter, always 200. -/
def deleteDiscussionE (db : DB) (did : Nat) : DB × Nat :=
  ({ db with discussions := db.discussions.filter (fun d => d.id != did) }, 200)

/-- PATCH /api/notifications/:id/read. -/
def markReadE (db : DB) (nid : Nat) : DB × Nat :=
  ({ db with
      notifications := updateFirst (fun n => n.id == nid)
        (fun n => { n with read := true }) db.notifications }, 200)

/-- PATCH /api/notifications/:user/read-all. -/
def markAllReadE (db : DB) (user : String) : DB × Nat :=
  ({ db with
      notifications := db.notifications.map (fun n =>
        if n.user == user then { n with read := true } else n) }, 200)

/-- PUT /api/sections/:id — rewrites title/content and stamps `updated_at`. -/
def updateSectionE (db : DB) (now : Nat) (sid : Nat) (title content : String) :
    DB × Nat :=
  ({ db with
      sections := updateFirst (fun s => s.id == sid)
        (fun s => { s with title := title, content := content, updated_at := some now })
        db.sections }, 200)

/-- GET /api/discussions — each discussion with its joined `section_title`. -/
def listDiscussionsE (db : DB) : List (Discussion × Option String) :=
  db.discussions.map (fun d =>
    (d, (db.sections.find? (fun s => some (s.id : Int) == d.section_id)).map
      (fun s => s.title)))

/-- Insert a notification into a list that is sorted by `created_at`
descending, before the first element whose `created_at` is ≤ its own
(the insertion step of a stable descending sort). -/
def insertDesc (n : Notification) : List Notification → List Notification
  | [] => [n]
  | m :: ms => if m.created_at ≤ n.created_at then n :: m :: ms else m :: insertDesc n ms

/-- Stable sort by `created_at` descending.  ECMAScript requires
`Array.prototype.sort` to be stable, and the comparator
`new Date(b.created_at) - new Date(a.created_at)` is a consistent descending
comparator on time values, so the JS sort result is exactly the stable
descending reordering computed here. -/
def sortDesc : List Notification → List Notification
  | [] => []
  | n :: ns => insertDesc n (sortDesc ns)

/-- GET /api/notifications/:user — filter by user, sort newest first, first 50. -/
def listForUserE (db : DB) (user : String) : List Notification :=
  (sortDesc (db.notifications.filter (fun n => n.user == user))).take 50

/-- The in-memory session map (token → expiresAt in ms).  A JS `Map` has
unique keys, so it is modelled as a function to `Option`. -/
def SessionStore : Type := String → Option Nat

/-- validateSession (app.js lines 635–644).  `!token` is true for an absent
token and for the empty string; an expired entry is deleted by the lookup
itself.  Returns the verdict together with the session store afterwards. -/
def validateSession (sessions : SessionStore) (now : Nat) (token : Option String) :
    Bool × SessionStore :=
  match token with
  | none => (false, sessions)
  | some t =>
    if t = "" then (false, sessions)
    else
      match sessions t with
      | none => (false, sessions)
      | some exp =>
        if now > exp then (false, fun x => if x = t then none else sessions x)
        else (true, sessions)

/-- createSession: stores a fresh token with expiry 7 days from now. -/
def createSession (sessions : SessionStore) (now : Nat) (token : String) : SessionStore :=
  fun x => if x = token then some (now + 7 * 24 * 60 * 60 * 1000) else sessions x

/-- JSON value trees, the image of `JSON.stringify`/`JSON.parse` on the
persisted data.json document. -/
inductive JVal where
  | null
  | bool (b : Bool)
  | num (v : Int)
  | str (s : String)
  | arr (xs : List JVal)
  | obj (fields : List (String × JVal))

def encodeOptInt : Option Int → JVal
  | none => .null
  | some v => .num v

def encodeOptNat : Option Nat → JVal
  | none => .null
  | some v => .num v

def encodeOptStr : Option String → JVal
  | none => .null
  | some s => .str s

def encodeReply (r : Reply) : JVal :=
  .obj [("id", .num r.id), ("text", .str r.text), ("author", .str r.author),
    ("created_at", .num r.created_at)]

def encodeDiscussion (d : Discussion) : JVal :=
  .obj [("id", .num d.id), ("section_id", encodeOptInt d.section_id),
    ("type", .str d.type), ("text", .str d.text), ("author", .str d.author),
    ("resolved", .bool d.resolved), ("resolved_by", encodeOptStr d.resolved_by),
    ("resolved_at", encodeOptNat d.resolved_at), ("created_at", .num d.created_at),
    ("replies", .arr (d.replies.map encodeReply))]

def encodeNotification (n : Notification) : JVal :=
  .obj [("id", .num n.id), ("user", .str n.user), ("type", .str n.type),
    ("message", .str n.message), ("discussion_id", .num n.discussion_id),
    ("read", .bool n.read), ("created_at", .num n.created_at)]

/-- A seed section stringifies without the `updated_at` key; once
PUT /api/sections/:id has stamped it, the key is present. -/
def encodePlanSection (s : PlanSection) : JVal :=
  match s.updated_at with
  | none => .obj [("id", .num s.id), ("title", .str s.title), ("level", .num s.level),
      ("content", .str s.content)]
  | some t => .obj [("id", .num s.id), ("title", .str s.title), ("level", .num s.level),
      ("content", .str s.content), ("updated_at", .num t)]

def encodeNextId (n : NextId) : JVal :=
  .obj [("discussion", .num n.discussion), ("reply", .num n.reply),
    ("notification", .num n.notification)]

def encodeDB (db : DB) : JVal :=
  .obj [("sections", .arr (db.sections.map encodePlanSection)),
    ("discussions", .arr (db.discussions.map encodeDiscussion)),
    ("notifications", .arr (db.notifications.map encodeNotification)),
    ("nextId", encodeNextId db.nextId)]

def asNat : JVal → Option Nat
  | .num v => if v < 0 then none else some v.toNat
  | _ => none

def asOptInt : JVal → Option (Option Int)
  | .null => some none
  | .num v => some (some v)
  | _ => none

def asOptNat : JVal → Option (Option Nat)
  | .null => some none
  | .num v => if v < 0 then none else some (some v.toNat)
  | _ => none

def asOptStr : JVal → Option (Option String)
  | .null => some none
  | .str s => some (some s)
  | _ => none

def decodeList (f : JVal → Option α) : List JVal → Option (List α)
  | [] => some []
  | x :: xs => do
    let a ← f x
    let rest ← decodeList f xs
    some (a :: rest)

def decodeReply : JVal → Option Reply
  | .obj [("id", i), ("text", .str t), ("author", .str a), ("created_at", c)] => do
    let id ← asNat i
    let ca ← asNat c
    some { id := id, text := t, author := a, created_at := ca }
  | _ => none

def decodeDiscussion : JVal → Option Discussion
  | .obj [("id", i), ("section_id", sid), ("type", .str ty), ("text", .str tx),
      ("author", .str au), ("resolved", .bool r), ("resolved_by", rb),
      ("resolved_at", ra), ("created_at", c), ("replies", .arr rs)] => do
    let id ← asNat i
    let sv ← asOptInt sid
    let rbv ← asOptStr rb
    let rav ← asOptNat ra
    let ca ← asNat c
    let reps ← decodeList decodeReply rs
    some { id := id, section_id := sv, type := ty, text := tx, author := au,
           resolved := r, resolved_by := rbv, resolved_at := rav, created_at := ca,
           replies := reps }
  | _ => none

def decodeNotification : JVal → Option Notification
  | .obj [("id", i), ("user", .str u), ("type", .str ty), ("message", .str m),
      ("discussion_id", di), ("read", .bool r), ("created_at", c)] => do
    let id ← asNat i
    let dv ← asNat di
    let ca ← asNat c
    some { id := id, user := u, type := ty, message := m, discussion_id := dv,
           read := r, created_at := ca }
  | _ => none

def decodePlanSection : JVal → Option PlanSection
  | .obj [("id", i), ("title", .str t), ("level", l), ("content", .str c)] => do
    let id ← asNat i
    let lv ← asNat l
    some { id := id, title := t, level := lv, content := c, updated_at := none }
  | .obj [("id", i), ("title", .str t), ("level", l), ("content", .str c),
      ("updated_at", u)] => do
    let id ← asNat i
    let lv ← asNat l
    let ut ← asNat u
    some { id := id, title := t, level := lv, content := c, updated_at := some ut }
  | _ => none

def decodeNextId : JVal → Option NextId
  | .obj [("discussion", d), ("reply", r), ("notification", n)] => do
    let dv ← asNat d
    let rv ← asNat r
    let nv ← asNat n
    some { discussion := dv, reply := rv, notification := nv }
  | _ => none

def decodeDB : JVal → Option DB
  | .obj [("sections", .arr ss), ("discussions", .arr ds),
      ("notifications", .arr ns), ("nextId", ni)] => do
    let secs ← decodeList decodePlanSection ss
    let dsv ← decodeList decodeDiscussion ds
    let nsv ← decodeList decodeNotification ns
    let niv ← decodeNextId ni
    some { sections := secs, discussions := dsv, notifications := nsv, nextId := niv }
  | _ => none

theorem asNat_num (n : Nat) : asNat (.num n) = some n := by
  simp [asNat]

theorem asOptNat_enc (o : Option Nat) : asOptNat (encodeOptNat o) = some o := by
  cases o <;> simp [asOptNat, encodeOptNat]

theorem asOptInt_enc (o : Option Int) : asOptInt (encodeOptInt o) = some o := by
  cases o <;> simp [asOptInt, encodeOptInt]

theorem asOptStr_enc (o : Option String) : asOptStr (encodeOptStr o) = some o := by
  cases o <;> simp [asOptStr, encodeOptStr]

theorem decodeList_map (f : JVal → Option α) (enc : α → JVal)
    (h : ∀ a, f (enc a) = some a) :
    ∀ l : List α, decodeList f (l.map enc) = some l
  | [] => rfl
  | a :: l => by
    simp [decodeList, h a, decodeList_map f enc h l]

theorem decodeReply_enc (r : Reply) : decodeReply (encodeReply r) = some r := by
  cases r
  simp [encodeReply, decodeReply, asNat_num]

set_option maxHeartbeats 1600000 in
theorem decodeDiscussion_enc (d : Discussion) :
    decodeDiscussion (encodeDiscussion d) = some d := by
  cases d
  simp [encodeDiscussion, decodeDiscussion, asNat_num, asOptInt_enc, asOptStr_enc,
    asOptNat_enc, decodeList_map decodeReply encodeReply decodeReply_enc]

theorem decodeNotification_enc (n : Notification) :
    decodeNotification (encodeNotification n) = some n := by
  cases n
  simp [encodeNotification, decodeNotification, asNat_num]

theorem decodePlanSection_enc (s : PlanSection) :
    decodePlanSection (encodePlanSection s) = some s := by
  cases s with
  | mk i t l c u =>
    cases u <;> simp [encodePlanSection, decodePlanSection, asNat_num]

theorem decodeNextId_enc (n : NextId) : decodeNextId (encodeNextId n) = some n := by
  cases n
  simp [encodeNextId, decodeNextId, asNat_num]

/-- Persisting the whole state and reading it back is the identity. -/
theorem decodeDB_enc (db : DB) : decodeDB (encodeDB db) = some db := by
  cases db
  simp [encodeDB, decodeDB, decodeNextId_enc,
    decodeList_map decodePlanSection encodePlanSection decodePlanSection_enc,
    decodeList_map decodeDiscussion encodeDiscussion decodeDiscussion_enc,
    decodeList_map decodeNotification encodeNotification decodeNotification_enc]

/-- One API request against the store (parameters as sent by a client, plus
the request's wall-clock time). -/
inductive Op where
  | create (now : Nat) (sid : Option Int) (ty tx au : String)
  | reply (now : Nat) (did : Nat) (tx au : String)
  | resolve (now : Nat) (did : Nat) (resolved : Bool) (rby : Option String)
  | del (did : Nat)
  | markRead (nid : Nat)
  | markAllRead (user : String)
  | editSection (now : Nat) (sid : Nat) (title content : String)
  | persist

/-- The state after handling one request.  `persist` is a full save/reload
cycle through the persistence file. -/
def applyOp (db : DB) : Op → DB
  | .create now sid ty tx au => (createDiscussionE db now sid ty tx au).1
  | .reply now did tx au => (addReplyE db now did tx au).1
  | .resolve now did r rby => (setResolvedE db now did r rby).1
  | .del did => (deleteDiscussionE db did).1
  | .markRead nid => (markReadE db nid).1
  | .markAllRead u => (markAllReadE db u).1
  | .editSection now sid t c => (updateSectionE db now sid t c).1
  | .persist => (decodeDB (encodeDB db)).getD db

/-- Run a sequence of API requests from a given state. -/
def run (db : DB) : List Op → DB
  | [] => db
  | op :: ops => run (applyOp db op) ops

/-- The discussion ids handed out by the create operations of a run,
in order. -/
def assignedIds (db : DB) : List Op → List Nat
  | [] => []
  | .create now sid ty tx au :: ops =>
    (createDiscussionE db now sid ty tx au).2 ::
      assignedIds (applyOp db (.create now sid ty tx au)) ops
  | op :: ops => assignedIds (applyOp db op) ops

theorem applyOp_persist (db : DB) : applyOp db .persist = db := by
  simp [applyOp, decodeDB_enc]

theorem updateFirst_mem {p : α → Bool} {f : α → α} :
    ∀ {l : List α} {x : α}, x ∈ updateFirst p f l → x ∈ l ∨ ∃ y ∈ l, x = f y := by
  intro l
  induction l with
  | nil => intro x hx; simp [updateFirst] at hx
  | cons a as ih =>
    intro x hx
    simp only [updateFirst] at hx
    split at hx
    · rcases List.mem_cons.mp hx with h1 | h1
      · exact Or.inr ⟨a, List.mem_cons_self a as, h1⟩
      · exact Or.inl (List.mem_cons_of_mem a h1)
    · rcases List.mem_cons.mp hx with h1 | h1
      · exact Or.inl (h1 ▸ List.mem_cons_self a as)
      · rcases ih h1 with h2 | ⟨y, hy, hxy⟩
        · exact Or.inl (List.mem_cons_of_mem a h2)
        · exact Or.inr ⟨y, List.mem_cons_of_mem a hy, hxy⟩

theorem updateFirst_of_no_match {p : α → Bool} {f : α → α} :
    ∀ {l : List α}, (∀ x ∈ l, p x = false) → updateFirst p f l = l := by
  intro l
  induction l with
  | nil => intro _; rfl
  | cons a as ih =>
    intro h
    simp [updateFirst, h a (List.mem_cons_self a as),
      ih (fun x hx => h x (List.mem_cons_of_mem a hx))]

theorem find?_updateFirst {p : α → Bool} {f : α → α} (hp : ∀ a, p (f a) = p a) :
    ∀ l : List α, (updateFirst p f l).find? p = (l.find? p).map f := by
  intro l
  induction l with
  | nil => rfl
  | cons a as ih =>
    simp only [updateFirst]
    split
    case isTrue h => simp [List.find?_cons_of_pos, hp a, h]
    case isFalse h =>
      rw [List.find?_cons_of_neg _ (by simp [h]),
        List.find?_cons_of_neg _ (by simp [h]), ih]

theorem discussion_counter_mono (db : DB) (op : Op) :
    db.nextId.discussion ≤ (applyOp db op).nextId.discussion := by
  cases op with
  | create now sid ty tx au =>
    simp [applyOp, createDiscussionE]
  | reply now did tx au =>
    simp only [applyOp, addReplyE]
    split <;> simp
  | resolve now did r rby => simp [applyOp, setResolvedE]
  | del did => simp [applyOp, deleteDiscussionE]
  | markRead nid => simp [applyOp, markReadE]
  | markAllRead u => simp [applyOp, markAllReadE]
  | editSection now sid t c => simp [applyOp, updateSectionE]
  | persist => simp [applyOp_persist]

/-- The stored-id invariant: the persisted discussion counter strictly
exceeds every discussion id present in the store. -/
def StoreIdInv (db : DB) : Prop :=
  ∀ d ∈ db.discussions, d.id < db.nextId.discussion

/-- The resolution invariant: an unresolved discussion carries no
resolver attribution. -/
def ResolvedInv (db : DB) : Prop :=
  ∀ d ∈ db.discussions, d.resolved = false →
    d.resolved_by = none ∧ d.resolved_at = none

theorem run_preserves {P : DB → Prop} (hstep : ∀ db op, P db → P (applyOp db op)) :
    ∀ (ops : List Op) (db : DB), P db → P (run db ops)
  | [], _, h => h
  | op :: ops, db, h => run_preserves hstep ops (applyOp db op) (hstep db op h)

theorem storeIdInv_step (db : DB) (op : Op) (h : StoreIdInv db) :
    StoreIdInv (applyOp db op) := by
  cases op with
  | create now sid ty tx au =>
    intro d hd
    simp only [applyOp, createDiscussionE, List.mem_append, List.mem_singleton] at hd
    rcases hd with hd | hd
    · exact Nat.lt_succ_of_lt (h d hd)
    · subst hd; exact Nat.lt_succ_self _
  | reply now did tx au =>
    intro d hd
    simp only [applyOp, addReplyE] at hd ⊢
    split at hd
    · exact h d hd
    · simp only at hd
      rcases updateFirst_mem hd with h1 | ⟨y, hy, hxy⟩
      · exact h d h1
      · subst hxy; exact h y hy
  | resolve now did r rby =>
    intro d hd
    simp only [applyOp, setResolvedE] at hd ⊢
    rcases updateFirst_mem hd with h1 | ⟨y, hy, hxy⟩
    · exact h d h1
    · subst hxy; exact h y hy
  | del did =>
    intro d hd
    simp only [applyOp, deleteDiscussionE] at hd ⊢
    exact h d (List.mem_of_mem_filter hd)
  | markRead nid => intro d hd; exact h d hd
  | markAllRead u => intro d hd; exact h d hd
  | editSection now sid t c => intro d hd; exact h d hd
  | persist => rw [applyOp_persist]; exact h

theorem resolvedInv_step (db : DB) (op : Op) (h : ResolvedInv db) :
    ResolvedInv (applyOp db op) := by
  cases op with
  | create now sid ty tx au =>
    intro d hd hr
    simp only [applyOp, createDiscussionE, List.mem_append, List.mem_singleton] at hd
    rcases hd with hd | hd
    · exact h d hd hr
    · subst hd; exact ⟨rfl, rfl⟩
  | reply now did tx au =>
    intro d hd hr
    simp only [applyOp, addReplyE] at hd
    split at hd
    · exact h d hd hr
    · simp only at hd
      rcases updateFirst_mem hd with h1 | ⟨y, hy, hxy⟩
      · exact h d h1 hr
      · subst hxy; exact h y hy hr
  | resolve now did r rby =>
    intro d hd hr
    simp only [applyOp, setResolvedE] at hd
    rcases updateFirst_mem hd with h1 | ⟨y, hy, hxy⟩
    · exact h d h1 hr
    · subst hxy
      simp only at hr
      subst hr
      simp
  | del did =>
    intro d hd hr
    simp only [applyOp, deleteDiscussionE] at hd
    exact h d (List.mem_of_mem_filter hd) hr
  | markRead nid => intro d hd hr; exact h d hd hr
  | markAllRead u => intro d hd hr; exact h d hd hr
  | editSection now sid t c => intro d hd hr; exact h d hd hr
  | persist => rw [applyOp_persist]; exact h

theorem le_of_mem_assignedIds :
    ∀ (ops : List Op) (db : DB) (i : Nat), i ∈ assignedIds db ops →
      db.nextId.discussion ≤ i := by
  intro ops
  induction ops with
  | nil => intro db i hi; simp [assignedIds] at hi
  | cons op ops ih =>
    intro db i hi
    cases op with
    | create now sid ty tx au =>
      simp only [assignedIds, List.mem_cons] at hi
      rcases hi with hi | hi
      · subst hi; exact Nat.le_refl _
      · exact Nat.le_trans (discussion_counter_mono db _) (ih _ i hi)
    | reply now did tx au =>
      exact Nat.le_trans (discussion_counter_mono db _) (ih _ i hi)
    | resolve now did r rby =>
      exact Nat.le_trans (discussion_counter_mono db _) (ih _ i hi)
    | del did =>
      exact Nat.le_trans (discussion_counter_mono db _) (ih _ i hi)
    | markRead nid =>
      exact Nat.le_trans (discussion_counter_mono db _) (ih _ i hi)
    | markAllRead u =>
      exact Nat.le_trans (discussion_counter_mono db _) (ih _ i hi)
    | editSection now sid t c =>
      exact Nat.le_trans (discussion_counter_mono db _) (ih _ i hi)
    | persist =>
      exact Nat.le_trans (discussion_counter_mono db _) (ih _ i hi)

theorem pairwise_assignedIds :
    ∀ (ops : List Op) (db : DB), (assignedIds db ops).Pairwise (· < ·) := by
  intro ops
  induction ops with
  | nil => intro db; simp [assignedIds]
  | cons op ops ih =>
    intro db
    cases op with
    | create now sid ty tx au =>
      refine List.Pairwise.cons ?_ (ih _)
      intro i hi
      have h1 := le_of_mem_assignedIds ops _ i hi
      have h2 : (applyOp db (.create now sid ty tx au)).nextId.discussion =
          db.nextId.discussion + 1 := rfl
      rw [h2] at h1
      exact Nat.lt_of_succ_le h1
    | reply now did tx au => exact ih _
    | resolve now did r rby => exact ih _
    | del did => exact ih _
    | markRead nid => exact ih _
    | markAllRead u => exact ih _
    | editSection now sid t c => exact ih _
    | persist => exact ih _

theorem mem_insertDesc {x n : Notification} :
    ∀ {l : List Notification}, x ∈ insertDesc n l → x = n ∨ x ∈ l := by
  intro l
  induction l with
  | nil => intro hx; simpa [insertDesc] using hx
  | cons m ms ih =>
    intro hx
    simp only [insertDesc] at hx
    split at hx
    · simpa using List.mem_cons.mp hx
    · rcases List.mem_cons.mp hx with h1 | h1
      · exact Or.inr (by simp [h1])
      · rcases ih h1 with h2 | h2
        · exact Or.inl h2
        · exact Or.inr (List.mem_cons_of_mem m h2)

theorem mem_sortDesc {x : Notification} :
    ∀ {l : List Notification}, x ∈ sortDesc l → x ∈ l := by
  intro l
  induction l with
  | nil => intro hx; simpa [sortDesc] using hx
  | cons n ns ih =>
    intro hx
    simp only [sortDesc] at hx
    rcases mem_insertDesc hx with h1 | h1
    · simp [h1]
    · exact List.mem_cons_of_mem n (ih h1)

theorem pairwise_insertDesc {n : Notification} :
    ∀ {l : List Notification},
      l.Pairwise (fun a b => b.created_at ≤ a.created_at) →
      (insertDesc n l).Pairwise (fun a b => b.created_at ≤ a.created_at) := by
  intro l
  induction l with
  | nil => intro _; simp [insertDesc]
  | cons m ms ih =>
    intro h
    rcases List.pairwise_cons.mp h with ⟨hma, hms⟩
    simp only [insertDesc]
    split
    case isTrue hm =>
      refine List.Pairwise.cons ?_ h
      intro x hx
      rcases List.mem_cons.mp hx with h1 | h1
      · exact h1 ▸ hm
      · exact Nat.le_trans (hma x h1) hm
    case isFalse hm =>
      refine List.Pairwise.cons ?_ (ih hms)
      intro x hx
      rcases mem_insertDesc hx with h1 | h1
      · subst h1; exact Nat.le_of_lt (Nat.lt_of_not_le hm)
      · exact hma x h1

theorem pairwise_sortDesc :
    ∀ l : List Notification,
      (sortDesc l).Pairwise (fun a b => b.created_at ≤ a.created_at)
  | [] => List.Pairwise.nil
  | n :: ns => pairwise_insertDesc (pairwise_sortDesc ns)

theorem filter_insertDesc (n : Notification) (t : Nat) :
    ∀ l : List Notification,
      (insertDesc n l).filter (fun x => x.created_at == t) =
        if n.created_at = t then n :: l.filter (fun x => x.created_at == t)
        else l.filter (fun x => x.created_at == t) := by
  intro l
  induction l with
  | nil =>
    by_cases hnt : n.created_at = t <;>
      simp [insertDesc, List.filter_cons, hnt]
  | cons m ms ih =>
    simp only [insertDesc]
    split
    case isTrue hm =>
      by_cases hnt : n.created_at = t <;> simp [List.filter_cons, hnt]
    case isFalse hm =>
      by_cases hnt : n.created_at = t
      · have hmt : m.created_at ≠ t := by
          intro hmt
          exact hm (by rw [hmt, ← hnt])
        simp [List.filter_cons, hmt, ih, hnt]
      · by_cases hmt : m.created_at = t <;> simp [List.filter_cons, hmt, ih, hnt]

theorem filter_sortDesc (t : Nat) :
    ∀ l : List Notification,
      (sortDesc l).filter (fun x => x.created_at == t) =
        l.filter (fun x => x.created_at == t) := by
  intro l
  induction l with
  | nil => rfl
  | cons n ns ih =>
    simp only [sortDesc]
    rw [filter_insertDesc]
    by_cases hnt : n.created_at = t <;> simp [List.filter_cons, hnt, ih]

theorem addReplyE_not_found {db : DB} {now did : Nat} {tx au : String}
    (h : db.discussions.find? (fun d => d.id == did) = none) :
    addReplyE db now did tx au = (db, 404, none) := by
  unfold addReplyE
  rw [h]

theorem addReplyE_found {db : DB} {now did : Nat} {tx au : String} {disc : Discussion}
    (h : db.discussions.find? (fun d => d.id == did) = some disc) :
    addReplyE db now did tx au =
      ({ db with
          discussions := updateFirst (fun d => d.id == did)
            (fun d => { d with replies := d.replies ++
              [{ id := db.nextId.reply, text := tx, author := au, created_at := now }] })
            db.discussions
          notifications := db.notifications ++ (replyRecipients au).enum.map (fun p =>
            { id := db.nextId.notification + p.1, user := p.2, type := "reply",
              message := au ++ " replied to a discussion", discussion_id := disc.id,
              read := false, created_at := now })
          nextId := { db.nextId with
            reply := db.nextId.reply + 1
            notification := db.nextId.notification + (replyRecipients au).length } },
        200, some db.nextId.reply) := by
  unfold addReplyE
  rw [h]

theorem mem_listDiscussionsE {db : DB} {d : Discussion} (hd : d ∈ db.discussions) :
    ∃ p ∈ listDiscussionsE db, p.1 = d :=
  ⟨_, List.mem_map_of_mem _ hd, rfl⟩

theorem find?_setResolvedE (db : DB) (now did : Nat) (r : Bool) (rb : Option String) :
    ((setResolvedE db now did r rb).1.discussions.find? (fun d0 => d0.id == did)) =
      (db.discussions.find? (fun d0 => d0.id == did)).map
        (fun d => { d with
          resolved := r
          resolved_by := if r then rb else none
          resolved_at := if r then some now else none }) := by
  simp only [setResolvedE]
  exact find?_updateFirst (p := fun d0 : Discussion => d0.id == did)
    (f := fun d : Discussion => { d with
      resolved := r
      resolved_by := if r then rb else none
      resolved_at := if r then some now else none }) (fun a => rfl) _

/-- A one-discussion store: Francisco created discussion 1 at time 10. -/
def demoDB : DB := (createDiscussionE (initDB []) 10 none "comment" "hello" "Francisco").1

/-- The discussion stored in `demoDB`. -/
def demoDisc : Discussion :=
  { id := 1, section_id := none, type := "comment", text := "hello",
    author := "Francisco", resolved := false, resolved_by := none,
    resolved_at := none, created_at := 10, replies := [] }

/-- Two notifications for Wife with the same `created_at`, inserted in id
order: the tie-breaking test state. -/
def tieN1 : Notification :=
  { id := 1, user := "Wife", type := "comment", message := "first",
    discussion_id := 1, read := false, created_at := 100 }

def tieN2 : Notification :=
  { id := 2, user := "Wife", type := "comment", message := "second",
    discussion_id := 2, read := false, created_at := 100 }

def tieDB : DB :=
  { sections := [], discussions := [], notifications := [tieN1, tieN2],
    nextId := { discussion := 1, reply := 1, notification := 3 } }

/-- A session store holding one token that expired at time 3. -/
def demoSessions : SessionStore := fun x => if x = "tok" then some 3 else none

/-- Claim C1 counterexample: resolving a discussion id absent from the store
(id 1 against the empty store) answers HTTP 200 success, not NotFound 404,
so the claim that the operation fails with NotFound is false (the
store-unchanged half of the claim does hold). -/
theorem C1_counterexample :
    (setResolvedE (initDB []) 0 1 true (some "Francisco")).2 = 200 ∧
    ¬ (setResolvedE (initDB []) 0 1 true (some "Francisco")).2 = 404 ∧
    (setResolvedE (initDB []) 0 1 true (some "Francisco")).1 = initDB [] := by
  refine ⟨rfl, by decide, rfl⟩

/-- Claim C1 (amended): a resolve request whose discussion id is not in the
store leaves the store unchanged but reports success (HTTP 200) rather than
failing with NotFound. -/
theorem C1_resolve_missing_id (db : DB) (now did : Nat) (r : Bool)
    (rb : Option String) (h : ∀ d ∈ db.discussions, d.id ≠ did) :
    setResolvedE db now did r rb = (db, 200) := by
  unfold setResolvedE
  rw [updateFirst_of_no_match (fun x hx => by simp [h x hx])]

theorem C1_resolve_missing_id_witness :
    setResolvedE (initDB []) 5 7 true (some "Wife") = (initDB [], 200) :=
  C1_resolve_missing_id (initDB []) 5 7 true (some "Wife") (by decide)

/-- Claim C2 counterexample: a creation request violating every constraint at
once (type "bogus" outside the enum, text empty after trimming, author
"Nobody" unknown) is not rejected: it succeeds and appends one discussion and
one notification to the empty store. -/
theorem C2_counterexample :
    (createDiscussionE (initDB []) 0 none "bogus" "" "Nobody").1.discussions.length = 1 ∧
    (createDiscussionE (initDB []) 0 none "bogus" "" "Nobody").1.notifications.length = 1 :=
  ⟨rfl, rfl⟩

/-- Claim C2 (amended): the create handler performs no validation at all:
every creation request succeeds, stores the given type, text and author
verbatim, appends exactly one discussion and one notification, and answers
with the fresh id. -/
theorem C2_create_no_validation (db : DB) (now : Nat) (sid : Option Int)
    (ty tx au : String) :
    ∃ d n, (createDiscussionE db now sid ty tx au).1.discussions = db.discussions ++ [d] ∧
      (createDiscussionE db now sid ty tx au).1.notifications = db.notifications ++ [n] ∧
      d.type = ty ∧ d.text = tx ∧ d.author = au ∧
      (createDiscussionE db now sid ty tx au).2 = d.id :=
  ⟨_, _, rfl, rfl, rfl, rfl, rfl, rfl⟩

/-- Claim C3 counterexample: with two equal-`created_at` notifications for
Wife, the listing returns the earlier-inserted one first ([tieN1, tieN2]);
the claimed later-inserted-first tie order ([tieN2, tieN1]) is false
(Array.prototype.sort is stable). -/
theorem C3_counterexample :
    listForUserE tieDB "Wife" = [tieN1, tieN2] ∧
    ¬ listForUserE tieDB "Wife" = [tieN2, tieN1] := by
  refine ⟨by decide, by decide⟩

/-- Claim C3 (amended): the per-user listing returns at most 50
notifications, all belonging to the user, sorted by `created_at` descending;
ties among equal `created_at` keep insertion order with the earlier-inserted
notification first (the sort is stable). -/
theorem C3_list_for_user (db : DB) (u : String) :
    (listForUserE db u).length ≤ 50 ∧
    (∀ n ∈ listForUserE db u, n.user = u) ∧
    (listForUserE db u).Pairwise (fun a b => b.created_at ≤ a.created_at) ∧
    (∀ t, (sortDesc (db.notifications.filter (fun n => n.user == u))).filter
        (fun n => n.created_at == t) =
      (db.notifications.filter (fun n => n.user == u)).filter
        (fun n => n.created_at == t)) := by
  refine ⟨?_, ?_, ?_, ?_⟩
  · simp only [listForUserE]
    rw [List.length_take]
    exact Nat.min_le_left _ _
  · intro n hn
    simp only [listForUserE] at hn
    have h1 := List.mem_of_mem_take hn
    have h2 := mem_sortDesc h1
    have h3 := List.of_mem_filter h2
    simpa using h3
  · simp only [listForUserE]
    exact List.Pairwise.sublist (List.take_sublist 50 _) (pairwise_sortDesc _)
  · intro t
    exact filter_sortDesc t _

theorem C3_list_for_user_witness :
    tieN1 ∈ listForUserE tieDB "Wife" ∧ tieN1.user = "Wife" :=
  ⟨by decide, (C3_list_for_user tieDB "Wife").2.1 tieN1 (by decide)⟩

/-- Claim C4: for an author among the two known users, a discussion creation
appends exactly one notification, unread, addressed to the other known user
and referencing the new discussion; a reply creation (on a found discussion)
likewise appends exactly one such notification referencing the found
discussion. -/
theorem C4_notify_other_user (db : DB) (now : Nat) (sid : Option Int)
    (ty tx : String) (did : Nat) (tx2 au : String)
    (hau : au = "Francisco" ∨ au = "Wife") :
    (∃ n : Notification,
      (createDiscussionE db now sid ty tx au).1.notifications = db.notifications ++ [n] ∧
      n.read = false ∧ n.user ≠ au ∧ (n.user = "Francisco" ∨ n.user = "Wife") ∧
      n.discussion_id = (createDiscussionE db now sid ty tx au).2) ∧
    (∀ disc, db.discussions.find? (fun d => d.id == did) = some disc →
      ∃ n : Notification,
        (addReplyE db now did tx2 au).1.notifications = db.notifications ++ [n] ∧
        n.read = false ∧ n.user ≠ au ∧ (n.user = "Francisco" ∨ n.user = "Wife") ∧
        n.discussion_id = disc.id) := by
  rcases hau with h | h <;> subst h
  · constructor
    · refine ⟨_, rfl, rfl, ?_, ?_, rfl⟩
      · show otherUser "Francisco" ≠ "Francisco"
        decide
      · show otherUser "Francisco" = "Francisco" ∨ otherUser "Francisco" = "Wife"
        decide
    · intro disc hdisc
      have heq : (addReplyE db now did tx2 "Francisco").1.notifications =
          db.notifications ++
            [{ id := db.nextId.notification, user := "Wife", type := "reply",
               message := "Francisco" ++ " replied to a discussion",
               discussion_id := disc.id, read := false, created_at := now }] := by
        rw [addReplyE_found hdisc]
        rfl
      refine ⟨_, heq, rfl, ?_, ?_, rfl⟩
      · show ("Wife" : String) ≠ "Francisco"
        decide
      · show ("Wife" : String) = "Francisco" ∨ ("Wife" : String) = "Wife"
        decide
  · constructor
    · refine ⟨_, rfl, rfl, ?_, ?_, rfl⟩
      · show otherUser "Wife" ≠ "Wife"
        decide
      · show otherUser "Wife" = "Francisco" ∨ otherUser "Wife" = "Wife"
        decide
    · intro disc hdisc
      have heq : (addReplyE db now did tx2 "Wife").1.notifications =
          db.notifications ++
            [{ id := db.nextId.notification, user := "Francisco", type := "reply",
               message := "Wife" ++ " replied to a discussion",
               discussion_id := disc.id, read := false, created_at := now }] := by
        rw [addReplyE_found hdisc]
        rfl
      refine ⟨_, heq, rfl, ?_, ?_, rfl⟩
      · show ("Francisco" : String) ≠ "Wife"
        decide
      · show ("Francisco" : String) = "Francisco" ∨ ("Francisco" : String) = "Wife"
        decide

theorem C4_notify_other_user_witness :
    ∃ n : Notification,
      (addReplyE demoDB 20 1 "thanks" "Wife").1.notifications =
        demoDB.notifications ++ [n] ∧
      n.read = false ∧ n.user ≠ "Wife" ∧ (n.user = "Francisco" ∨ n.user = "Wife") ∧
      n.discussion_id = demoDisc.id :=
  (C4_notify_other_user demoDB 20 none "x" "y" 1 "thanks" "Wife"
    (Or.inr rfl)).2 demoDisc (by decide)

/-- Claim C5: replying to a discussion id that is not in the store answers
NotFound (404) and returns the store exactly as it was (in particular the
notification collection is untouched). -/
theorem C5_reply_missing_id (db : DB) (now did : Nat) (tx au : String)
    (h : ∀ d ∈ db.discussions, d.id ≠ did) :
    addReplyE db now did tx au = (db, 404, none) :=
  addReplyE_not_found (List.find?_eq_none.mpr (fun d hd => by simp [h d hd]))

theorem C5_reply_missing_id_witness :
    addReplyE (initDB []) 3 9 "t" "Wife" = (initDB [], 404, none) :=
  C5_reply_missing_id (initDB []) 3 9 "t" "Wife" (by decide)

/-- Claim C6: in every state reachable by API operations from initialization,
an unresolved discussion has no resolver attribution
(`resolved=false ⇒ resolved_by=none ∧ resolved_at=none`); and resolving a
discussion as X then unresolving it as Y always leaves `resolved_by=none`
and `resolved_at=none`. -/
theorem C6_resolved_invariant :
    (∀ (secs : List PlanSection) (ops : List Op),
      ResolvedInv (run (initDB secs) ops)) ∧
    (∀ (db : DB) (t1 t2 did : Nat) (x y : Option String) (d : Discussion),
      ((setResolvedE (setResolvedE db t1 did true x).1 t2 did false y).1.discussions.find?
        (fun d0 => d0.id == did)) = some d →
      d.resolved_by = none ∧ d.resolved_at = none) := by
  constructor
  · intro secs ops
    exact run_preserves resolvedInv_step ops (initDB secs)
      (fun d hd => by simp [initDB] at hd)
  · intro db t1 t2 did x y d hd
    rw [find?_setResolvedE, find?_setResolvedE] at hd
    rcases hopt : db.discussions.find? (fun d0 => d0.id == did) with _ | d0
    · rw [hopt] at hd
      simp at hd
    · rw [hopt] at hd
      simp only [Option.map_some'] at hd
      have hde := Option.some.inj hd
      subst hde
      simp

theorem C6_resolved_invariant_witness :
    ({ id := 1, section_id := none, type := "comment", text := "hello",
       author := "Francisco", resolved := false, resolved_by := none,
       resolved_at := none, created_at := 10, replies := [] } : Discussion).resolved_by
        = none ∧
    ({ id := 1, section_id := none, type := "comment", text := "hello",
       author := "Francisco", resolved := false, resolved_by := none,
       resolved_at := none, created_at := 10, replies := [] } : Discussion).resolved_at
        = none :=
  C6_resolved_invariant.2 demoDB 30 40 1 (some "Francisco") (some "Wife") _ (by decide)

/-- Claim C7: along every run of API operations from initialization
(deletions and save/reload cycles included) the discussion ids handed out by
creations are strictly increasing; the persisted discussion counter strictly
exceeds every stored discussion id in every reachable state; and a created
discussion appears in the discussion listing immediately afterwards. -/
theorem C7_ids_monotone :
    (∀ (secs : List PlanSection) (ops : List Op),
      (assignedIds (initDB secs) ops).Pairwise (· < ·)) ∧
    (∀ (secs : List PlanSection) (ops : List Op),
      StoreIdInv (run (initDB secs) ops)) ∧
    (∀ (db : DB) (now : Nat) (sid : Option Int) (ty tx au : String),
      ∃ p ∈ listDiscussionsE (createDiscussionE db now sid ty tx au).1,
        p.1.id = (createDiscussionE db now sid ty tx au).2) := by
  refine ⟨?_, ?_, ?_⟩
  · intro secs ops
    exact pairwise_assignedIds ops (initDB secs)
  · intro secs ops
    exact run_preserves storeIdInv_step ops (initDB secs)
      (fun d hd => by simp [initDB] at hd)
  · intro db now sid ty tx au
    obtain ⟨d, hd, hid⟩ : ∃ d ∈ (createDiscussionE db now sid ty tx au).1.discussions,
        d.id = (createDiscussionE db now sid ty tx au).2 :=
      ⟨_, List.mem_append_right _ (List.mem_singleton_self _), rfl⟩
    obtain ⟨p, hp, hp1⟩ := mem_listDiscussionsE hd
    exact ⟨p, hp, by rw [hp1, hid]⟩

theorem C7_ids_monotone_witness :
    demoDisc.id <
      (run (initDB []) [Op.create 10 none "comment" "hello" "Francisco"]).nextId.discussion :=
  C7_ids_monotone.2.1 [] [Op.create 10 none "comment" "hello" "Francisco"]
    demoDisc (by decide)

/-- Claim C8: validateSession fails closed: it answers false for a missing
token, for a token with no entry, and for a token whose recorded expiry is
earlier than the current time; in the expired case the entry is deleted by
the lookup itself.  (Recorded tokens are 64-character hex strings from
createSession, hence nonempty.) -/
theorem C8_validate_fails_closed (s : SessionStore) (now : Nat) :
    validateSession s now none = (false, s) ∧
    (∀ t : String, s t = none → validateSession s now (some t) = (false, s)) ∧
    (∀ (t : String) (e : Nat), t ≠ "" → s t = some e → e < now →
      (validateSession s now (some t)).1 = false ∧
      (validateSession s now (some t)).2 t = none) := by
  refine ⟨rfl, ?_, ?_⟩
  · intro t ht
    by_cases h : t = ""
    · simp [validateSession, h]
    · simp [validateSession, h, ht]
  · intro t e hne hse hlt
    simp [validateSession, hne, hse, hlt]

theorem C8_validate_fails_closed_witness :
    (validateSession demoSessions 10 (some "tok")).1 = false ∧
    (validateSession demoSessions 10 (some "tok")).2 "tok" = none :=
  (C8_validate_fails_closed demoSessions 10).2.2 "tok" 3 (by decide)
    (by decide) (by decide)

/-- Claim C9: serializing the whole store to the persistence document and
reading it back yields the original store: save followed by load is the
identity on the schema. -/
theorem C9_save_load_roundtrip (db : DB) : decodeDB (encodeDB db) = some db :=
  decodeDB_enc db

/-- Claim C10: with an author string that is neither "Francisco" nor "Wife",
a discussion creation still succeeds and appends exactly one notification,
always addressed to "Francisco", while a reply creation (on a found
discussion) appends two notifications, one to "Francisco" and one to "Wife":
create and reply disagree on the recipient set for unknown authors. -/
theorem C10_unknown_author (db : DB) (now : Nat) (sid : Option Int)
    (ty tx : String) (did : Nat) (tx2 au : String)
    (h1 : au ≠ "Francisco") (h2 : au ≠ "Wife") :
    (∃ n : Notification,
      (createDiscussionE db now sid ty tx au).1.notifications = db.notifications ++ [n] ∧
      n.user = "Francisco") ∧
    (∀ disc, db.discussions.find? (fun d => d.id == did) = some disc →
      ∃ nf nw : Notification,
        (addReplyE db now did tx2 au).1.notifications = db.notifications ++ [nf, nw] ∧
        nf.user = "Francisco" ∧ nw.user = "Wife") := by
  constructor
  · exact ⟨_, rfl, by simp [otherUser, h1]⟩
  · intro disc hdisc
    have hrec : replyRecipients au = ["Francisco", "Wife"] := by
      simp [replyRecipients, List.filter_cons, bne_iff_ne, Ne.symm h1, Ne.symm h2]
    have heq : (addReplyE db now did tx2 au).1.notifications =
        db.notifications ++
          [{ id := db.nextId.notification, user := "Francisco", type := "reply",
             message := au ++ " replied to a discussion", discussion_id := disc.id,
             read := false, created_at := now },
           { id := db.nextId.notification + 1, user := "Wife", type := "reply",
             message := au ++ " replied to a discussion", discussion_id := disc.id,
             read := false, created_at := now }] := by
      rw [addReplyE_found hdisc, hrec]
      rfl
    exact ⟨_, _, heq, rfl, rfl⟩

theorem C10_unknown_author_witness :
    ∃ nf nw : Notification,
      (addReplyE demoDB 20 1 "re" "Bob").1.notifications =
        demoDB.notifications ++ [nf, nw] ∧
      nf.user = "Francisco" ∧ nw.user = "Wife" :=
  (C10_unknown_author demoDB 20 none "x" "y" 1 "re" "Bob"
    (by decide) (by decide)).2 demoDisc (by decide)

end BPR
